import Mathlib

/-!
Verification of kubetest2: initialization, cluster topology and the GCE `Up`
sequence.

A shallow embedding of

* `kubetest2-gke/deployer/common.go`: `init`, `initialize`,
  `filterMultiProjectClusterName`;
* `kubetest2-gce/deployer/up.go`: `Up`, `enableComputeAPI`.

Go strings are Lean `String`s, Go `int` is `Int` (64 bit, range checked where
`strconv` checks it), a Go `error` is a `GoError` value (`nil` is `none`), a Go
map is an association list with at most one entry per key.  Collaborators that
live outside the two files (flag verification, the boskos client, command
execution, firewall rules, log dumping) are oracles collected in an environment
record; every theorem quantifies over them.  `Up` records its external steps
and log lines as a list of events; the two log lines of `initialize` are not
recorded.
-/

namespace Kubetest2

/-! ## Go values -/

/-- A Go `error` value.  `fmt.Errorf` calls are kept symbolic (format string and
argument) so that no message rendering has to be modelled. -/
inductive GoError where
  /-- an error returned by a collaborator outside the modelled code -/
  | external (msg : String)
  /-- a `*strconv.NumError` with fields `Func`, `Num`, `Err` -/
  | numError (func : String) (num : String) (err : String)
  /-- the value of `fmt.Errorf(format)`, no argument -/
  | errorf (format : String)
  /-- the value of `fmt.Errorf(format, s)` for a string `s` -/
  | errorfStr (format : String) (arg : String)
  /-- the value of `fmt.Errorf(format, err)` for an error `err` -/
  | errorfErr (format : String) (arg : GoError)
  deriving DecidableEq, Repr

/-- How a Go call ends: it returns its `error` result (`none` is `nil`), or it
panics with a run-time error. -/
inductive Outcome where
  | returned (err : Option GoError)
  | panicked (msg : String)
  deriving DecidableEq, Repr

deriving instance DecidableEq for Except

/-- A Go `map[string][]string`: association list, at most one entry per key. -/
abbrev GoMap := List (String × List String)

/-- The map read `m[k]` together with its presence flag. -/
def mapGet (m : GoMap) (k : String) : Option (List String) :=
  match m with
  | [] => none
  | (k', v) :: rest => if k' = k then some v else mapGet rest k

/-- The map write `m[k] = v`: an existing entry is overwritten in place, a new
key gets a new entry. -/
def mapSet (m : GoMap) (k : String) (v : List String) : GoMap :=
  match m with
  | [] => [(k, v)]
  | (k', v') :: rest => if k' = k then (k, v) :: rest else (k', v') :: mapSet rest k v

/-! ## `strings.Split` and `strconv.Atoi` (Go standard library) -/

/-- The pieces of `cs` between occurrences of the separator character. -/
def splitChars (sep : Char) : List Char → List (List Char)
  | [] => [[]]
  | c :: cs =>
    if c = sep then [] :: splitChars sep cs
    else
      match splitChars sep cs with
      | [] => [[c]]
      | piece :: pieces => (c :: piece) :: pieces

/-- The call `strings.Split(s, "-")`. -/
def stringsSplit (s : String) : List String :=
  (splitChars '-' s.data).map String.mk

/-- Size of the Go `int` type in bits. -/
def intSize : Nat := 64

/-- The value of an ASCII decimal digit, `none` for any other character. -/
def digitVal (c : Char) : Option Nat :=
  if '0' ≤ c ∧ c ≤ '9' then some (c.toNat - '0'.toNat) else none

/-- The digit loop of `strconv.ParseUint(s, 10, 64)`: left to right, a
non-digit is a syntax error, an accumulated value above `2^64 - 1` a range
error. -/
def parseUintLoop (s0 : String) : List Char → Nat → Except GoError Nat
  | [], n => .ok n
  | c :: cs, n =>
    match digitVal c with
    | none => .error (.numError "Atoi" s0 "invalid syntax")
    | some d =>
      if n * 10 + d ≥ 2 ^ 64 then .error (.numError "Atoi" s0 "value out of range")
      else parseUintLoop s0 cs (n * 10 + d)

/-- The call `strconv.Atoi(s)`: an optional sign, then one or more decimal
digits, the value within the range of `int`. -/
def strconvAtoi (s : String) : Except GoError Int :=
  match s.data with
  | [] => .error (.numError "Atoi" s "invalid syntax")
  | c :: cs =>
    let neg := decide (c = '-')
    let digits := if c = '-' ∨ c = '+' then cs else c :: cs
    if digits = [] then .error (.numError "Atoi" s "invalid syntax")
    else
      match parseUintLoop s digits 0 with
      | .error e => .error e
      | .ok un =>
        if ¬ neg ∧ un ≥ 2 ^ (intSize - 1) then
          .error (.numError "Atoi" s "value out of range")
        else if neg ∧ un > 2 ^ (intSize - 1) then
          .error (.numError "Atoi" s "value out of range")
        else .ok (if neg then - (un : Int) else (un : Int))

/-! ## `filterMultiProjectClusterName` (common.go, lines 99-116) -/

/-- The `for _, clusterName := range clusters` loop of
`filterMultiProjectClusterName`, with the accumulated `result`. -/
def filterLoop (projectID : Int) : List String → List String → Except GoError (List String)
  | [], result => .ok result
  | clusterName :: rest, result =>
    match stringsSplit clusterName with
    | [name, index] =>
      match strconvAtoi index with
      | .error err =>
        .error (.errorfErr
          "cluster name does not follow contain a valid project index (name-projectIndex. E.g: cluster-0): %s"
          err)
      | .ok projectIndex =>
        if projectIndex = projectID then filterLoop projectID rest (result ++ [name])
        else filterLoop projectID rest result
    | _ =>
      .error (.errorfStr
        "cluster name does not follow expected format (name-projectIndex): %s" clusterName)

/-- The function `filterMultiProjectClusterName(clusters, projectID)`. -/
def filterMultiProjectClusterName (clusters : List String) (projectID : Int) :
    Except GoError (List String) :=
  filterLoop projectID clusters []

/-! ## The GKE deployer state and its collaborators (common.go) -/

/-- The constant `gkeProjectResourceType`. -/
def gkeProjectResourceType : String := "gke-project"

/-- The value of `time.Second`, in nanoseconds. -/
def timeSecond : Int := 1000000000

/-- Wrap-around of a mathematical integer into the `int64` range. -/
def wrapInt64 (x : Int) : Int := (x + 2 ^ 63) % 2 ^ 64 - 2 ^ 63

/-- A boskos client handle, as returned by `boskos.NewClient`. -/
structure BoskosClient where
  location : String
  deriving DecidableEq, Repr

/-- The fields of the GKE `deployer` struct that `init` and `initialize` use.
`shouldUp` and `shouldDown` are the answers of `d.commonOptions.ShouldUp()` and
`ShouldDown()`; `doInit` is the done flag of the `sync.Once`. -/
structure deployer where
  shouldUp : Bool
  shouldDown : Bool
  projects : List String
  clusters : List String
  clustersLayout : GoMap
  boskos : Option BoskosClient
  boskosLocation : String
  boskosProjectsRequested : Int
  boskosAcquireTimeoutSeconds : Int
  doInit : Bool
  deriving DecidableEq, Repr

/-- What the outside world has seen so far: the number of `boskos.Acquire`
calls issued. -/
structure World where
  acquireCalls : Nat
  deriving DecidableEq, Repr

/-- The collaborators of `initialize` that are not part of common.go.
`verifyUpFlags` and `verifyDownFlags` answer with the error they return; the
fields they may write (resolved paths) are not among those of `deployer` above.
`acquire client type timeout n` is the answer of the call of `boskos.Acquire`
that is issued after `n` earlier ones: the resource name, or an error (the
heartbeat channel handed to it is not modelled). -/
structure Env where
  verifyUpFlags : deployer → Option GoError
  verifyDownFlags : deployer → Option GoError
  newClient : String → Except GoError BoskosClient
  acquire : BoskosClient → String → Int → Nat → Except GoError String

/-! ## `initialize` and `init` (common.go, lines 33-97) -/

/-- The loop `for i := 0; i < d.boskosProjectsRequested; i++` (lines 55-68),
with the number of iterations still to run. -/
def acquireLoop (env : Env) (client : BoskosClient) :
    Nat → deployer → World → Option GoError × deployer × World
  | 0, d, w => (none, d, w)
  | n + 1, d, w =>
    match env.acquire client gkeProjectResourceType
        (wrapInt64 (d.boskosAcquireTimeoutSeconds * timeSecond)) w.acquireCalls with
    | .error err =>
      (some (.errorfErr "init failed to get project from boskos: %s" err), d,
        { w with acquireCalls := w.acquireCalls + 1 })
    | .ok name =>
      acquireLoop env client n { d with projects := d.projects ++ [name] }
        { w with acquireCalls := w.acquireCalls + 1 }

/-- The block `if len(d.projects) == 0 { ... }` (lines 46-69). -/
def acquireProjects (env : Env) (d : deployer) (w : World) :
    Option GoError × deployer × World :=
  if d.projects.length = 0 then
    match env.newClient d.boskosLocation with
    | .error err => (some (.errorfErr "failed to make boskos client: %s" err), d, w)
    | .ok boskosClient =>
      acquireLoop env boskosClient d.boskosProjectsRequested.toNat
        { d with boskos := some boskosClient } w
  else (none, d, w)

/-- The loop `for iProject, project := range d.projects` (lines 75-82) over the
projects still to visit, with the index of the next one and the layout so far. -/
def layoutLoop (clusters : List String) :
    List String → Nat → GoMap → Option GoError × GoMap
  | [], _, layout => (none, layout)
  | project :: rest, iProject, layout =>
    match filterMultiProjectClusterName clusters (iProject : Int) with
    | .error err =>
      (some (.errorfErr "aborting initialization due to invalid project name: %s" err), layout)
    | .ok names => layoutLoop clusters rest (iProject + 1) (mapSet layout project names)

/-- The message of the run-time panic of `s[0]` on an empty slice. -/
def indexPanic : String := "runtime error: index out of range [0] with length 0"

/-- The multi-cluster name adjustment (lines 71-87). -/
def buildLayout (d : deployer) : Outcome × deployer :=
  let numProjects := d.projects.length
  let d := { d with clustersLayout := [] }
  if numProjects > 1 then
    match layoutLoop d.clusters d.projects 0 d.clustersLayout with
    | (some err, layout) => (.returned (some err), { d with clustersLayout := layout })
    | (none, layout) => (.returned none, { d with clustersLayout := layout })
  else
    let d := { d with clustersLayout := [] }
    match d.projects, d.clusters with
    | project :: _, cluster :: _ =>
      (.returned none, { d with clustersLayout := mapSet d.clustersLayout project [cluster] })
    | _, _ => (.panicked indexPanic, d)

/-- The block `if d.commonOptions.ShouldUp() { ... }` (lines 41-88). -/
def initialiseUp (env : Env) (d : deployer) (w : World) : Outcome × deployer × World :=
  match env.verifyUpFlags d with
  | some err => (.returned (some (.errorfErr "init failed to verify flags for up: %s" err)), d, w)
  | none =>
    match acquireProjects env d w with
    | (some err, d, w) => (.returned (some err), d, w)
    | (none, d, w) =>
      let (out, d) := buildLayout d
      (out, d, w)

/-- The block `if d.commonOptions.ShouldDown() { ... }` (lines 90-94) and the
final `return nil`. -/
def initialiseDown (env : Env) (d : deployer) (w : World) : Outcome × deployer × World :=
  if d.shouldDown then
    match env.verifyDownFlags d with
    | some err =>
      (.returned (some (.errorfErr "init failed to verify flags for down: %s" err)), d, w)
    | none => (.returned none, d, w)
  else (.returned none, d, w)

/-- The method `initialize` (the spelling differs: the source name is a reserved
word of Lean). -/
def initialise (env : Env) (d : deployer) (w : World) : Outcome × deployer × World :=
  if d.shouldUp then
    match initialiseUp env d w with
    | (.returned none, d, w) => initialiseDown env d w
    | stopped => stopped
  else initialiseDown env d w

/-- The method `init`: `var err error; d.doInit.Do(func() { err = d.initialize() });
return err`.  `sync.Once.Do` runs the function only while the done flag is
unset, and sets the flag when the function is left, also by a panic. -/
def init (env : Env) (d : deployer) (w : World) : Outcome × deployer × World :=
  if d.doInit then (.returned none, d, w)
  else
    match initialise env d w with
    | (out, d, w) => (out, { d with doInit := true }, w)

/-! ## The GCE deployer: `Up` and `enableComputeAPI` (up.go, lines 28-104) -/

/-- The method `verifyUpFlags` (up.go, lines 106-121), the only one among the
sources, as a function of `d.NumNodes` and of the answer of
`d.setRepoPathIfNotSet()`.  It looks at no project: "verifyUpFlags does not
check for a gcp project because it is assumed that one will be acquired from
boskos if it is not set". -/
def verifyUpFlags (NumNodes : Int) (setRepoPathIfNotSet : Option GoError) : Option GoError :=
  if NumNodes < 1 then some (.errorf "number of nodes must be at least 1")
  else
    match setRepoPathIfNotSet with
    | some err => some err
    | none => none

/-- The fields of the GCE `deployer` struct that `Up` reads. -/
structure gceDeployer where
  EnableComputeAPI : Bool
  GCPProject : String
  RepoRoot : String
  deriving DecidableEq, Repr

/-- An external step taken by `Up`, in the order taken.  `klog level format arg`
is a line handed to the logger, with the error argument if there is one. -/
inductive Event where
  | init
  | run (name : String) (args : List String) (env : List String)
  | dumpClusterLogs
  | isUp
  | createFirewallRuleNodePort
  | createFirewallRuleHostPort
  | klog (level : String) (format : String) (arg : Option GoError)
  deriving DecidableEq, Repr

/-- The collaborators of `Up`: each field is the answer of the call of that
name (`run name args env` is the answer of `cmd.Run()` for
`exec.Command(name, args...)` with environment `env`). -/
structure UpEnv where
  init : Option GoError
  osEnviron : List String
  buildEnv : List String
  filepathJoin : List String → String
  run : String → List String → List String → Option GoError
  dumpClusterLogs : Option GoError
  isUp : Except GoError Bool
  createFirewallRuleNodePort : Option GoError
  createFirewallRuleHostPort : Option GoError

/-- The arguments of the `gcloud` command of `enableComputeAPI`. -/
def enableComputeAPIArgs (project : String) : List String :=
  ["services", "enable", "compute.googleapis.com", "--project=" ++ project]

/-- The function `enableComputeAPI(project)`. -/
def enableComputeAPI (env : UpEnv) (project : String) : Option GoError × List Event :=
  let environ := env.osEnviron
  match env.run "gcloud" (enableComputeAPIArgs project) environ with
  | some err =>
    (some (.errorfErr "failed to enable compute API: %s" err),
      [.run "gcloud" (enableComputeAPIArgs project) environ])
  | none => (none, [.run "gcloud" (enableComputeAPIArgs project) environ])

/-- The path of the bring-up script, `filepath.Join(d.RepoRoot, "cluster", "kube-up.sh")`. -/
def kubeUpScript (env : UpEnv) (d : gceDeployer) : String :=
  env.filepathJoin [d.RepoRoot, "cluster", "kube-up.sh"]

/-- The health query of `Up` (lines 60-67): whatever `IsUp` answers, only a log
line is written. -/
def upHealth (env : UpEnv) : List Event :=
  match env.isUp with
  | .error err => [.isUp, .klog "Warningf" "failed to check if cluster is up: %s" (some err)]
  | .ok true => [.isUp, .klog "V(1).Infof" "cluster reported as up" none]
  | .ok false => [.isUp, .klog "Errorf" "cluster reported as down" none]

/-- The two firewall rules of `Up` (lines 69-79). -/
def upFirewall (env : UpEnv) : Option GoError × List Event :=
  let nodePort : List Event :=
    [.klog "V(2).Info" "about to create nodeport firewall rule" none, .createFirewallRuleNodePort]
  let hostPort : List Event :=
    [.klog "V(2).Info" "about to create hostport firewall rule" none, .createFirewallRuleHostPort]
  match env.createFirewallRuleNodePort with
  | some err => (some (.errorfErr "failed to create firewall rule: %s" err), nodePort)
  | none =>
    match env.createFirewallRuleHostPort with
    | some err => (some (.errorfErr "failed to create firewall rule: %s" err), nodePort ++ hostPort)
    | none => (none, nodePort ++ hostPort)

/-- The part of `Up` that follows the `defer` statement (lines 48-79): the
bring-up script, the health query and the firewall rules. -/
def upBody (env : UpEnv) (d : gceDeployer) : Option GoError × List Event :=
  let envVars := env.buildEnv
  let script := kubeUpScript env d
  let start : List Event :=
    [.klog "V(2).Infof" ("About to run script at: " ++ script) none, .run script [] envVars]
  match env.run script [] envVars with
  | some err => (some (.errorfErr ("error encountered during " ++ script ++ ": %s") err), start)
  | none =>
    let (err, events) := upFirewall env
    (err, start ++ upHealth env ++ events)

/-- The deferred function of `Up` (lines 42-46): `DumpClusterLogs`, whose
failure is only logged. -/
def upDeferred (env : UpEnv) : List Event :=
  match env.dumpClusterLogs with
  | some err =>
    [.dumpClusterLogs, .klog "Warningf" "Dumping cluster logs at the end of Up() failed: %s" (some err)]
  | none => [.dumpClusterLogs]

/-- The optional enabling of the compute API in `Up` (lines 35-40). -/
def upEnableAPI (env : UpEnv) (d : gceDeployer) : Option GoError × List Event :=
  if d.EnableComputeAPI then
    let (err, events) := enableComputeAPI env d.GCPProject
    (err, .klog "V(2).Info" "enabling compute API for project" none :: events)
  else (none, [])

/-- The method `Up`: its returned error and the external steps it took.  The
deferred function runs when the body is left; `Up` has no named result, so the
returned error is that of the body. -/
def Up (env : UpEnv) (d : gceDeployer) : Option GoError × List Event :=
  let start : List Event := [.klog "V(1).Info" "GCE deployer starting Up()" none, .init]
  match env.init with
  | some err => (some (.errorfErr "up failed to init: %s" err), start)
  | none =>
    match upEnableAPI env d with
    | (some err, apiEvents) =>
      (some (.errorfErr "up couldn't enable compute API: %s" err), start ++ apiEvents)
    | (none, apiEvents) =>
      let (err, events) := upBody env d
      (err, start ++ apiEvents ++ events ++ upDeferred env)

/-! ## The token format `name-projectIndex`, in the words of the specification -/

/-- The number of hyphens in a token. -/
def hyphenCount (t : String) : Nat := t.data.count '-'

/-- The text of a token before its first hyphen. -/
def firstPart (t : String) : String := String.mk (t.data.takeWhile (fun c => c != '-'))

/-- The text of a token after its first hyphen. -/
def afterHyphen (t : String) : String :=
  String.mk ((t.data.dropWhile (fun c => c != '-')).tail)

/-- The decimal digits of a numeral: the text without a leading plus sign. -/
def numeralDigits (s : String) : List Char :=
  match s.data with
  | '+' :: ds => ds
  | ds => ds

/-- A non-negative base-10 integer: one or more decimal digits, which a plus
sign may precede. -/
def isNonNegDecimal (s : String) : Bool :=
  !(numeralDigits s).isEmpty && (numeralDigits s).all Char.isDigit

/-- The number a numeral denotes in base 10. -/
def decimalValue (s : String) : Nat :=
  (numeralDigits s).foldl (fun n c => n * 10 + (c.toNat - 48)) 0

/-- A token of the form `name-i`: exactly one hyphen, followed by a non-negative
base-10 integer. -/
def isWellFormedToken (t : String) : Bool :=
  decide (hyphenCount t = 1) && isNonNegDecimal (afterHyphen t)

/-- The project index `i` of a token of the form `name-i`. -/
def tokenIndex (t : String) : Option Nat :=
  if isWellFormedToken t then some (decimalValue (afterHyphen t)) else none

/-- The names, in input order, of the tokens whose integer suffix, as
`strconv.Atoi` reads it, is `projectID`. -/
def namesWithSuffix (clusters : List String) (projectID : Int) : List String :=
  (clusters.filter (fun t => decide (strconvAtoi (afterHyphen t) = .ok projectID))).map firstPart

/-- The names, in input order, of the tokens of the form `name-i`. -/
def namesOfProject (clusters : List String) (i : Nat) : List String :=
  (clusters.filter (fun t => decide (tokenIndex t = some i))).map firstPart

/-- The layout in which the projects `ps`, numbered from `i`, each hold the
names of their tokens. -/
def layoutOf (clusters : List String) : List String → Nat → GoMap
  | [], _ => []
  | p :: ps, i => (p, namesOfProject clusters i) :: layoutOf clusters ps (i + 1)

/-- The token has a project index `j` with `lo ≤ j < lo + n`. -/
def indexInRange (lo n : Nat) (t : String) : Bool :=
  match tokenIndex t with
  | some j => decide (lo ≤ j ∧ j < lo + n)
  | none => false

/-- The number of names held by a layout, over all its projects. -/
def totalNames (layout : GoMap) : Nat := (layout.map (fun entry => entry.2.length)).sum

/-! ## Concrete inputs used by the closed statements -/

/-- A collaborator record for `Up` in which every step succeeds, apart from the
health query, which fails. -/
def upEnvHealthFails : UpEnv :=
  { init := none
    osEnviron := []
    buildEnv := ["NUM_NODES=3"]
    filepathJoin := fun parts => "/".intercalate parts
    run := fun _ _ _ => none
    dumpClusterLogs := none
    isUp := .error (.external "connection refused")
    createFirewallRuleNodePort := none
    createFirewallRuleHostPort := none }

/-- As `upEnvHealthFails`, but every `gcloud` command fails. -/
def upEnvGcloudFails : UpEnv :=
  { upEnvHealthFails with
    run := fun name _ _ => if name = "gcloud" then some (.external "exit status 1") else none }

/-- A GCE deployer that asks for the compute API to be enabled. -/
def gceWithAPI : gceDeployer :=
  { EnableComputeAPI := true, GCPProject := "proj-a", RepoRoot := "/repo" }

/-- Collaborators of `initialize` that all succeed: three nodes and a resolved
repository path for `verifyUpFlags`; the broker hands out `proj-x`, then
`proj-y`, then `proj-y` again. -/
def envAllSucceed : Env :=
  { verifyUpFlags := fun _ => verifyUpFlags 3 none
    verifyDownFlags := fun _ => none
    newClient := fun location => .ok { location := location }
    acquire := fun _ _ _ n => .ok (if n = 0 then "proj-x" else "proj-y") }

/-- As `envAllSucceed`, but with zero nodes: the flags for `up` do not verify. -/
def envUpFlagsFail : Env :=
  { envAllSucceed with verifyUpFlags := fun _ => verifyUpFlags 0 none }

/-- As `envAllSucceed`, but the second call of `boskos.Acquire` fails. -/
def envSecondAcquireFails : Env :=
  { envAllSucceed with
    acquire := fun _ _ _ n =>
      if n = 0 then .ok "proj-x"
      else if n = 1 then .error (.external "resources not found")
      else .ok "proj-y" }

/-- An `up` run over pre-supplied projects. -/
def upDeployer (projects clusters : List String) : deployer :=
  { shouldUp := true
    shouldDown := false
    projects := projects
    clusters := clusters
    clustersLayout := []
    boskos := none
    boskosLocation := "http://boskos"
    boskosProjectsRequested := 0
    boskosAcquireTimeoutSeconds := 300
    doInit := false }

/-- An `up` run that asks the broker for `requested` projects. -/
def brokerDeployer (requested : Int) (clusters : List String) : deployer :=
  { upDeployer [] clusters with boskosProjectsRequested := requested }

/-! ## Lemmas: splitting and number parsing -/

theorem splitChars_ne_nil (sep : Char) (cs : List Char) : splitChars sep cs ≠ [] := by
  cases cs with
  | nil => simp [splitChars]
  | cons c cs =>
    unfold splitChars
    split
    · simp
    · split <;> simp

theorem splitChars_length (sep : Char) (cs : List Char) :
    (splitChars sep cs).length = cs.count sep + 1 := by
  induction cs with
  | nil => simp [splitChars]
  | cons c cs ih =>
    unfold splitChars
    by_cases h : c = sep
    · subst h
      simp [ih]
    · simp only [h, if_false]
      have hne : (c == sep) = false := by simpa using h
      rw [List.count_cons, hne]
      cases hs : splitChars sep cs with
      | nil => exact absurd hs (splitChars_ne_nil sep cs)
      | cons piece pieces =>
        rw [hs] at ih
        simpa using ih

theorem splitChars_of_not_mem (sep : Char) (cs : List Char) (h : sep ∉ cs) :
    splitChars sep cs = [cs] := by
  induction cs with
  | nil => simp [splitChars]
  | cons c cs ih =>
    have hc : ¬ c = sep := fun hc => h (by simp [hc])
    have hcs : sep ∉ cs := fun hm => h (List.mem_cons_of_mem _ hm)
    simp [splitChars, hc, ih hcs]

theorem splitChars_two (sep : Char) (cs a b : List Char) (h : splitChars sep cs = [a, b]) :
    a = cs.takeWhile (fun c => c != sep) ∧ b = (cs.dropWhile (fun c => c != sep)).tail ∧
      sep ∉ b := by
  induction cs generalizing a with
  | nil => simp [splitChars] at h
  | cons c cs ih =>
    unfold splitChars at h
    by_cases hc : c = sep
    · subst hc
      simp only [if_true, List.cons.injEq] at h
      have hlen := splitChars_length c cs
      have h1 : splitChars c cs = [b] := h.2
      have ha : a = [] := h.1.symm
      rw [h1] at hlen
      have hnot : c ∉ cs := by
        intro hm
        have := List.count_pos_iff.mpr hm
        simp at hlen
        omega
      rw [splitChars_of_not_mem c cs hnot] at h1
      have hb : cs = b := by simpa using h1
      subst hb
      subst ha
      simp [hnot]
    · simp only [hc, if_false] at h
      cases hs : splitChars sep cs with
      | nil => exact absurd hs (splitChars_ne_nil sep cs)
      | cons piece pieces =>
        rw [hs] at h
        simp only [List.cons.injEq] at h
        obtain ⟨ha, hp⟩ := h
        subst hp
        obtain ⟨h1, h2, h3⟩ := ih piece hs
        have hne : (c != sep) = true := by simpa using hc
        refine ⟨?_, ?_, h3⟩
        · rw [← ha, List.takeWhile_cons, hne]
          simp [h1]
        · rw [List.dropWhile_cons, hne]
          simpa using h2

theorem digitVal_some (c : Char) (d : Nat) (h : digitVal c = some d) :
    c.isDigit = true ∧ d = c.toNat - 48 := by
  unfold digitVal at h
  split at h
  · rename_i hc
    simp only [Option.some.injEq] at h
    refine ⟨?_, ?_⟩
    · have h0 : (48 : Nat) ≤ c.toNat := hc.1
      have h9 : c.toNat ≤ 57 := hc.2
      simp only [Char.isDigit, Bool.and_eq_true, decide_eq_true_eq, ge_iff_le]
      exact ⟨h0, h9⟩
    · rw [← h]; rfl
  · simp at h

theorem parseUintLoop_ok (s0 : String) (ds : List Char) (n v : Nat)
    (h : parseUintLoop s0 ds n = .ok v) :
    ds.all Char.isDigit = true ∧ v = ds.foldl (fun n c => n * 10 + (c.toNat - 48)) n := by
  induction ds generalizing n with
  | nil =>
    simp only [parseUintLoop, Except.ok.injEq] at h
    simp [h]
  | cons c cs ih =>
    unfold parseUintLoop at h
    cases hd : digitVal c with
    | none => simp [hd] at h
    | some d =>
      simp only [hd] at h
      split at h
      · simp at h
      · obtain ⟨h1, h2⟩ := ih _ h
        obtain ⟨hc, hdv⟩ := digitVal_some c d hd
        subst hdv
        simp [hc, h1, h2]

theorem strconvAtoi_ok (s : String) (v : Int) (h : strconvAtoi s = .ok v)
    (hminus : '-' ∉ s.data) :
    isNonNegDecimal s = true ∧ v = (decimalValue s : Int) := by
  unfold strconvAtoi at h
  cases hs : s.data with
  | nil => simp [hs] at h
  | cons c cs =>
    have hc : c ≠ '-' := by
      intro hc
      apply hminus
      simp [hs, hc]
    simp only [hs, hc, decide_False, false_or, Bool.false_eq_true, false_and, if_false,
      not_false_eq_true, true_and] at h
    by_cases hp : c = '+'
    · subst hp
      simp only [if_true] at h
      split at h
      · simp at h
      · rename_i hne
        cases hl : parseUintLoop s cs 0 with
        | error e => simp [hl] at h
        | ok un =>
          simp only [hl] at h
          split at h
          · simp at h
          · obtain ⟨h1, h2⟩ := parseUintLoop_ok s cs 0 un hl
            simp only [Except.ok.injEq] at h
            have hnd : numeralDigits s = cs := by simp [numeralDigits, hs]
            refine ⟨?_, ?_⟩
            · simp only [isNonNegDecimal, hnd, h1, Bool.and_true]
              cases cs with
              | nil => exact absurd rfl hne
              | cons x xs => rfl
            · simp only [decimalValue, hnd, ← h2, ← h]
    · simp only [hp, if_false] at h
      cases hl : parseUintLoop s (c :: cs) 0 with
      | error e => simp [hl] at h
      | ok un =>
        simp only [hl] at h
        split at h
        · simp at h
        · split at h
          · simp at h
          · obtain ⟨h1, h2⟩ := parseUintLoop_ok s (c :: cs) 0 un hl
            simp only [Except.ok.injEq] at h
            have hnd : numeralDigits s = c :: cs := by
              unfold numeralDigits
              rw [hs]
              split
              · rename_i heq
                simp only [List.cons.injEq] at heq
                exact absurd heq.1 hp
              · rfl
            refine ⟨?_, ?_⟩
            · simp only [isNonNegDecimal, hnd, h1, Bool.and_true]
              rfl
            · simp only [decimalValue, hnd, ← h2, ← h]

/-- What a token that the loop body accepts looks like, in the words of the
specification. -/
theorem token_accepted (t name index : String) (v : Int)
    (hsplit : stringsSplit t = [name, index]) (hatoi : strconvAtoi index = .ok v) :
    name = firstPart t ∧ index = afterHyphen t ∧ isWellFormedToken t = true ∧
      v = (decimalValue (afterHyphen t) : Int) := by
  unfold stringsSplit at hsplit
  cases hs : splitChars '-' t.data with
  | nil => exact absurd hs (splitChars_ne_nil _ _)
  | cons a rest =>
    cases rest with
    | nil => simp [hs] at hsplit
    | cons b rest' =>
      cases rest' with
      | cons c rest'' => simp [hs] at hsplit
      | nil =>
        simp only [hs, List.map_cons, List.map_nil, List.cons.injEq, and_true] at hsplit
        obtain ⟨hname, hindex⟩ := hsplit
        obtain ⟨ha, hb, hnot⟩ := splitChars_two '-' t.data a b hs
        have hlen := splitChars_length '-' t.data
        rw [hs] at hlen
        have hcount : hyphenCount t = 1 := by
          unfold hyphenCount
          simp at hlen
          omega
        have hname' : name = firstPart t := by
          rw [← hname, ha]; rfl
        have hindex' : index = afterHyphen t := by
          rw [← hindex, hb]; rfl
        have hmem : '-' ∉ index.data := by
          rw [← hindex]; exact hnot
        obtain ⟨h1, h2⟩ := strconvAtoi_ok index v hatoi hmem
        rw [hindex'] at h1 h2
        exact ⟨hname', hindex', by simp [isWellFormedToken, hcount, h1], h2⟩

/-! ## Lemmas: `filterMultiProjectClusterName` -/

/-- Either some token is rejected, and then every call fails with the same
error whatever the project and the accumulator, or every call succeeds with the
names of its project appended. -/
theorem filterLoop_cases (clusters : List String) :
    (∃ e, ∀ (p : Int) (acc : List String), filterLoop p clusters acc = .error e) ∨
    ((∀ (p : Int) (acc : List String),
        filterLoop p clusters acc = .ok (acc ++ namesWithSuffix clusters p)) ∧
      ∀ t ∈ clusters, isWellFormedToken t = true ∧
        strconvAtoi (afterHyphen t) = .ok (decimalValue (afterHyphen t) : Int)) := by
  induction clusters with
  | nil =>
    right
    refine ⟨?_, by simp⟩
    intro p acc
    simp [filterLoop, namesWithSuffix]
  | cons t rest ih =>
    cases hs : stringsSplit t with
    | nil => left; exact ⟨(.errorfStr "cluster name does not follow expected format (name-projectIndex): %s" t), fun p acc => by simp [filterLoop, hs]⟩
    | cons name l1 =>
      cases l1 with
      | nil => left; exact ⟨(.errorfStr "cluster name does not follow expected format (name-projectIndex): %s" t), fun p acc => by simp [filterLoop, hs]⟩
      | cons index l2 =>
        cases l2 with
        | cons x l3 => left; exact ⟨(.errorfStr "cluster name does not follow expected format (name-projectIndex): %s" t), fun p acc => by simp [filterLoop, hs]⟩
        | nil =>
          cases ha : strconvAtoi index with
          | error err =>
            left
            exact ⟨.errorfErr
              "cluster name does not follow contain a valid project index (name-projectIndex. E.g: cluster-0): %s"
              err, fun p acc => by simp [filterLoop, hs, ha]⟩
          | ok v =>
            obtain ⟨hname, hindex, hwf, hv⟩ := token_accepted t name index v hs ha
            rcases ih with ⟨e, he⟩ | ⟨hok, hall⟩
            · left
              refine ⟨e, fun p acc => ?_⟩
              simp only [filterLoop, hs, ha]
              split <;> exact he _ _
            · right
              have hat : strconvAtoi (afterHyphen t) = .ok v := by rw [← hindex]; exact ha
              refine ⟨fun p acc => ?_, ?_⟩
              · simp only [filterLoop, hs, ha]
                by_cases hp : v = p
                · simp [hp, hok, namesWithSuffix, hat, hname]
                · have hne : ¬ (Except.ok v : Except GoError Int) = .ok p := by
                    intro h; exact hp (by simpa using h)
                  simp [hp, hok, namesWithSuffix, hat, hne]
              · intro t' ht'
                rcases List.mem_cons.mp ht' with rfl | hmem
                · exact ⟨hwf, by rw [hat, hv]⟩
                · exact hall t' hmem

/-- C10: for every token list, either every call of
`filterMultiProjectClusterName`, whatever its `projectID`, fails, and with the
same error, or every call succeeds and returns exactly the first parts (the text
before the hyphen) of the tokens whose integer suffix parses to `projectID`, in
input order; so the verdict does not depend on `projectID`, and a token whose
index is never queried is in no result. -/
theorem C10_filter_verdict_independent_of_project (clusters : List String) :
    (∃ e, ∀ p : Int, filterMultiProjectClusterName clusters p = .error e) ∨
    (∀ p : Int, filterMultiProjectClusterName clusters p = .ok (namesWithSuffix clusters p)) := by
  rcases filterLoop_cases clusters with ⟨e, he⟩ | ⟨hok, _⟩
  · exact Or.inl ⟨e, fun p => he p []⟩
  · right
    intro p
    have := hok p []
    simpa [filterMultiProjectClusterName] using this

theorem namesWithSuffix_eq_namesOfProject (clusters : List String)
    (hall : ∀ t ∈ clusters, isWellFormedToken t = true ∧
      strconvAtoi (afterHyphen t) = .ok (decimalValue (afterHyphen t) : Int))
    (i : Nat) : namesWithSuffix clusters (i : Int) = namesOfProject clusters i := by
  unfold namesWithSuffix namesOfProject
  congr 1
  apply List.filter_congr
  intro t ht
  obtain ⟨hwf, hat⟩ := hall t ht
  simp only [hat, tokenIndex, hwf, if_true, Except.ok.injEq, Option.some.injEq, Nat.cast_inj]

/-- When one call of the filter succeeds, every call does, with the names of
the tokens of the form `name-i`, and every token has that form. -/
theorem filter_ok_all (clusters : List String) (p : Int) (names : List String)
    (h : filterMultiProjectClusterName clusters p = .ok names) :
    (∀ i : Nat, filterMultiProjectClusterName clusters (i : Int) = .ok (namesOfProject clusters i)) ∧
      ∀ t ∈ clusters, isWellFormedToken t = true := by
  rcases filterLoop_cases clusters with ⟨e, he⟩ | ⟨hok, hall⟩
  · have := he p []
    rw [filterMultiProjectClusterName] at h
    rw [h] at this
    cases this
  · refine ⟨fun i => ?_, fun t ht => (hall t ht).1⟩
    have := hok (i : Int) []
    rw [namesWithSuffix_eq_namesOfProject clusters hall] at this
    simpa [filterMultiProjectClusterName] using this

theorem filter_error_of_bad (clusters : List String) (bad : String) (hmem : bad ∈ clusters)
    (hbad : isWellFormedToken bad = false) :
    ∃ e, ∀ p : Int, filterMultiProjectClusterName clusters p = .error e := by
  rcases filterLoop_cases clusters with ⟨e, he⟩ | ⟨_, hall⟩
  · exact ⟨e, fun p => he p []⟩
  · have := (hall bad hmem).1
    rw [hbad] at this
    cases this

/-! ## Lemmas: maps and the layout loop -/

theorem mapSet_of_not_mem (m : GoMap) (k : String) (v : List String)
    (h : k ∉ m.map Prod.fst) : mapSet m k v = m ++ [(k, v)] := by
  induction m with
  | nil => rfl
  | cons entry rest ih =>
    obtain ⟨k', v'⟩ := entry
    have hk : ¬ k' = k := fun hk => h (by simp [hk])
    have hrest : k ∉ rest.map Prod.fst := fun hm => h (by simp at hm ⊢; exact Or.inr hm)
    simp [mapSet, hk, ih hrest]

theorem layoutLoop_ok (clusters : List String)
    (hall : ∀ i : Nat,
      filterMultiProjectClusterName clusters (i : Int) = .ok (namesOfProject clusters i)) :
    ∀ (ps : List String) (i : Nat) (m : GoMap), ps.Nodup →
      (∀ p ∈ ps, p ∉ m.map Prod.fst) →
      layoutLoop clusters ps i m = (none, m ++ layoutOf clusters ps i) := by
  intro ps
  induction ps with
  | nil => intro i m _ _; simp [layoutLoop, layoutOf]
  | cons p ps ih =>
    intro i m hnd hdisj
    have hp : p ∉ m.map Prod.fst := hdisj p (by simp)
    obtain ⟨hpps, hnd'⟩ := List.nodup_cons.mp hnd
    simp only [layoutLoop, hall i, mapSet_of_not_mem m p _ hp]
    rw [ih (i + 1) _ hnd']
    · simp [layoutOf]
    · intro q hq
      have hqm := hdisj q (List.mem_cons_of_mem _ hq)
      have hqp : q ≠ p := fun h => hpps (h ▸ hq)
      simp only [List.map_append, List.map_cons, List.map_nil, List.mem_append,
        List.mem_singleton, not_or]
      exact ⟨hqm, hqp⟩

theorem layoutOf_keys (clusters : List String) (ps : List String) (i : Nat) :
    (layoutOf clusters ps i).map Prod.fst = ps := by
  induction ps generalizing i with
  | nil => rfl
  | cons p ps ih => simp [layoutOf, ih]

theorem mapGet_layoutOf (clusters : List String) :
    ∀ (ps : List String) (i : Nat), ps.Nodup → ∀ (j : Nat) (hj : j < ps.length),
      mapGet (layoutOf clusters ps i) (ps.get ⟨j, hj⟩) = some (namesOfProject clusters (i + j)) := by
  intro ps
  induction ps with
  | nil => intro i _ j hj; simp at hj
  | cons p ps ih =>
    intro i hnd j hj
    obtain ⟨hpps, hnd'⟩ := List.nodup_cons.mp hnd
    cases j with
    | zero => simp [layoutOf, mapGet]
    | succ j =>
      have hj' : j < ps.length := by simpa using hj
      have hne : ¬ p = ps.get ⟨j, hj'⟩ := fun h => hpps (h ▸ List.get_mem ps j hj')
      have := ih (i + 1) hnd' j hj'
      simp only [layoutOf, mapGet, List.get_cons_succ, hne, if_false, this]
      congr 2
      omega

theorem countP_index_step (clusters : List String) (i n : Nat) :
    clusters.countP (fun t => decide (tokenIndex t = some i)) +
        clusters.countP (indexInRange (i + 1) n) =
      clusters.countP (indexInRange i (n + 1)) := by
  induction clusters with
  | nil => rfl
  | cons t rest ih =>
    simp only [List.countP_cons]
    have key : (if decide (tokenIndex t = some i) = true then 1 else 0) +
        (if indexInRange (i + 1) n t = true then 1 else 0) =
        (if indexInRange i (n + 1) t = true then 1 else 0) := by
      unfold indexInRange
      cases h : tokenIndex t with
      | none => simp
      | some j =>
        simp only [Option.some.injEq, decide_eq_true_eq]
        split_ifs <;> omega
    omega

theorem totalNames_layoutOf (clusters : List String) (ps : List String) (i : Nat) :
    totalNames (layoutOf clusters ps i) = clusters.countP (indexInRange i ps.length) := by
  induction ps generalizing i with
  | nil =>
    simp only [layoutOf, totalNames, List.map_nil, List.sum_nil, List.length_nil]
    symm
    rw [List.countP_eq_zero]
    intro t _
    unfold indexInRange
    cases tokenIndex t <;> simp
  | cons p ps ih =>
    have h := ih (i + 1)
    unfold totalNames at h ⊢
    simp only [layoutOf, List.map_cons, List.sum_cons, h, List.length_cons]
    rw [← countP_index_step]
    simp [namesOfProject, List.countP_eq_length_filter]

/-! ## Theorems: `Up` -/

theorem upFirewall_some (env : UpEnv) (e : GoError) (h : (upFirewall env).1 = some e) :
    env.createFirewallRuleNodePort ≠ none ∨ env.createFirewallRuleHostPort ≠ none := by
  unfold upFirewall at h
  cases hn : env.createFirewallRuleNodePort with
  | some a => simp
  | none =>
    cases hh : env.createFirewallRuleHostPort with
    | some b => simp
    | none => simp [hn, hh] at h

theorem upBody_some (env : UpEnv) (d : gceDeployer) (e : GoError)
    (h : (upBody env d).1 = some e) :
    env.run (kubeUpScript env d) [] env.buildEnv ≠ none ∨
      env.createFirewallRuleNodePort ≠ none ∨ env.createFirewallRuleHostPort ≠ none := by
  unfold upBody at h
  cases hr : env.run (kubeUpScript env d) [] env.buildEnv with
  | some a => simp
  | none =>
    simp only [hr] at h
    exact Or.inr (upFirewall_some env e h)

theorem upEnableAPI_some (env : UpEnv) (d : gceDeployer) (e : GoError)
    (h : (upEnableAPI env d).1 = some e) :
    d.EnableComputeAPI = true ∧
      env.run "gcloud" (enableComputeAPIArgs d.GCPProject) env.osEnviron ≠ none := by
  unfold upEnableAPI at h
  cases ha : d.EnableComputeAPI with
  | false => simp [ha] at h
  | true =>
    refine ⟨rfl, ?_⟩
    intro hnone
    simp [ha, enableComputeAPI, hnone] at h

theorem Up_fst (env : UpEnv) (d : gceDeployer) :
    (Up env d).1 =
      match env.init with
      | some err => some (.errorfErr "up failed to init: %s" err)
      | none =>
        match (upEnableAPI env d).1 with
        | some err => some (.errorfErr "up couldn't enable compute API: %s" err)
        | none => (upBody env d).1 := by
  unfold Up
  cases env.init with
  | some a => rfl
  | none =>
    rcases hA : upEnableAPI env d with ⟨_ | a, ev⟩ <;> simp [hA]

theorem upBody_isUp (env : UpEnv) (d : gceDeployer) (health : Except GoError Bool) :
    (upBody { env with isUp := health } d).1 = (upBody env d).1 := by
  unfold upBody kubeUpScript
  simp only
  cases env.run (env.filepathJoin [d.RepoRoot, "cluster", "kube-up.sh"]) [] env.buildEnv <;> rfl

/-- C8 (as stated, refuted): with init, bring-up and both firewall rules all
succeeding, `Up` still returns an error when the enabling of the compute API
fails. -/
theorem C8_counterexample :
    upEnvGcloudFails.init = none ∧
      upEnvGcloudFails.run (kubeUpScript upEnvGcloudFails gceWithAPI) []
        upEnvGcloudFails.buildEnv = none ∧
      upEnvGcloudFails.createFirewallRuleNodePort = none ∧
      upEnvGcloudFails.createFirewallRuleHostPort = none ∧
      (Up upEnvGcloudFails gceWithAPI).1 =
        some (.errorfErr "up couldn't enable compute API: %s"
          (.errorfErr "failed to enable compute API: %s" (.external "exit status 1"))) := by
  decide

/-- C8 (amended): `Up` returns a non-nil error only if init failed, the enabling
of the compute API was requested and failed, the bring-up script failed, or one
of the two firewall-rule creations failed; and the returned error is the same
whatever the health query answers (an error, up, or down). -/
theorem C8_up_fails_only_on (env : UpEnv) (d : gceDeployer) :
    (∀ e, (Up env d).1 = some e →
      env.init ≠ none ∨
      (d.EnableComputeAPI = true ∧
        env.run "gcloud" (enableComputeAPIArgs d.GCPProject) env.osEnviron ≠ none) ∨
      env.run (kubeUpScript env d) [] env.buildEnv ≠ none ∨
      env.createFirewallRuleNodePort ≠ none ∨
      env.createFirewallRuleHostPort ≠ none) ∧
    (∀ health, (Up { env with isUp := health } d).1 = (Up env d).1) := by
  refine ⟨?_, ?_⟩
  · intro e h
    rw [Up_fst] at h
    cases hi : env.init with
    | some a => simp
    | none =>
      simp only [hi] at h
      cases hA : (upEnableAPI env d).1 with
      | some a => exact Or.inr (Or.inl (upEnableAPI_some env d a hA))
      | none =>
        simp only [hA] at h
        exact Or.inr (Or.inr (upBody_some env d e h))
  · intro health
    rw [Up_fst, Up_fst, upBody_isUp]
    rfl

/-- C8 (amended), at a concrete input: the compute API cannot be enabled. -/
theorem C8_up_fails_only_on_witness :
    (Up upEnvGcloudFails gceWithAPI).1 =
        some (.errorfErr "up couldn't enable compute API: %s"
          (.errorfErr "failed to enable compute API: %s" (.external "exit status 1"))) ∧
      (upEnvGcloudFails.init ≠ none ∨
        (gceWithAPI.EnableComputeAPI = true ∧
          upEnvGcloudFails.run "gcloud" (enableComputeAPIArgs gceWithAPI.GCPProject)
            upEnvGcloudFails.osEnviron ≠ none) ∨
        upEnvGcloudFails.run (kubeUpScript upEnvGcloudFails gceWithAPI) []
          upEnvGcloudFails.buildEnv ≠ none ∨
        upEnvGcloudFails.createFirewallRuleNodePort ≠ none ∨
        upEnvGcloudFails.createFirewallRuleHostPort ≠ none) :=
  ⟨by decide,
    (C8_up_fails_only_on upEnvGcloudFails gceWithAPI).1
      (.errorfErr "up couldn't enable compute API: %s"
        (.errorfErr "failed to enable compute API: %s" (.external "exit status 1")))
      (by decide)⟩

theorem upDeferred_count (env : UpEnv) : (upDeferred env).count .dumpClusterLogs = 1 := by
  unfold upDeferred
  cases h : env.dumpClusterLogs <;> simp [List.count_cons]

theorem upFirewall_count (env : UpEnv) : (upFirewall env).2.count .dumpClusterLogs = 0 := by
  unfold upFirewall
  cases h : env.createFirewallRuleNodePort <;> cases h' : env.createFirewallRuleHostPort <;>
    simp [List.count_cons]

theorem upHealth_count (env : UpEnv) : (upHealth env).count .dumpClusterLogs = 0 := by
  unfold upHealth
  rcases h : env.isUp with _ | _ | _ <;> simp [List.count_cons]

theorem upBody_count (env : UpEnv) (d : gceDeployer) :
    (upBody env d).2.count .dumpClusterLogs = 0 := by
  unfold upBody
  cases h : env.run (kubeUpScript env d) [] env.buildEnv with
  | some a => simp [h, List.count_cons]
  | none => simp [h, List.count_cons, upFirewall_count, upHealth_count]

theorem upEnableAPI_count (env : UpEnv) (d : gceDeployer) :
    (upEnableAPI env d).2.count .dumpClusterLogs = 0 := by
  unfold upEnableAPI enableComputeAPI
  cases ha : d.EnableComputeAPI with
  | false => simp
  | true =>
    cases h : env.run "gcloud" (enableComputeAPIArgs d.GCPProject) env.osEnviron <;>
      simp [h, List.count_cons]

theorem Up_snd (env : UpEnv) (d : gceDeployer) (hinit : env.init = none)
    (hapi : (upEnableAPI env d).1 = none) :
    (Up env d).2 =
      [.klog "V(1).Info" "GCE deployer starting Up()" none, .init] ++ (upEnableAPI env d).2 ++
        (upBody env d).2 ++ upDeferred env := by
  unfold Up
  rcases hA : upEnableAPI env d with ⟨_ | a, ev⟩
  · simp [hinit]
  · simp [hA] at hapi

theorem upEnableAPI_none (env : UpEnv) (d : gceDeployer)
    (hapi : d.EnableComputeAPI = true →
      env.run "gcloud" (enableComputeAPIArgs d.GCPProject) env.osEnviron = none) :
    (upEnableAPI env d).1 = none := by
  unfold upEnableAPI enableComputeAPI
  cases ha : d.EnableComputeAPI with
  | false => simp
  | true => simp [hapi ha]

theorem upBody_dump (env : UpEnv) (d : gceDeployer) (logs : Option GoError) :
    upBody { env with dumpClusterLogs := logs } d = upBody env d := rfl

theorem upEnableAPI_dump (env : UpEnv) (d : gceDeployer) (logs : Option GoError) :
    upEnableAPI { env with dumpClusterLogs := logs } d = upEnableAPI env d := rfl

/-- C9: once init and the optional enabling of the compute API have succeeded,
`DumpClusterLogs` runs exactly once, after every step of the body (only its own
log line may follow), whatever bring-up, the health query and the firewall rules
do; the error `Up` returns does not depend on the outcome of the log capture;
and when bring-up and both firewall rules succeed `Up` returns nil, whatever the
health query answers. -/
theorem C9_log_capture_always_runs (env : UpEnv) (d : gceDeployer)
    (hinit : env.init = none)
    (hapi : d.EnableComputeAPI = true →
      env.run "gcloud" (enableComputeAPIArgs d.GCPProject) env.osEnviron = none) :
    (Up env d).2.count .dumpClusterLogs = 1 ∧
    (∃ before, (Up env d).2 = before ++ upDeferred env ∧
      before.count .dumpClusterLogs = 0 ∧ upDeferred env ≠ [] ∧
      (upDeferred env).head? = some .dumpClusterLogs) ∧
    (∀ logs, (Up { env with dumpClusterLogs := logs } d).1 = (Up env d).1) ∧
    (env.run (kubeUpScript env d) [] env.buildEnv = none →
      env.createFirewallRuleNodePort = none → env.createFirewallRuleHostPort = none →
      (Up env d).1 = none) := by
  have hA := upEnableAPI_none env d hapi
  have hS := Up_snd env d hinit hA
  refine ⟨?_, ⟨_, hS, ?_, ?_, ?_⟩, ?_, ?_⟩
  · rw [hS]
    simp [List.count_cons, upEnableAPI_count, upBody_count, upDeferred_count]
  · simp [List.count_cons, upEnableAPI_count, upBody_count]
  · unfold upDeferred
    cases env.dumpClusterLogs <;> simp
  · unfold upDeferred
    cases env.dumpClusterLogs <;> rfl
  · intro logs
    rw [Up_fst, Up_fst, upBody_dump, upEnableAPI_dump]
  · intro hr hn hh
    rw [Up_fst]
    simp [hinit, hA, upBody, upFirewall, hr, hn, hh]

/-- C9, at a concrete input: init and the enabling of the compute API succeed,
the health query fails, bring-up and the firewall rules succeed; the log capture
runs once and `Up` returns nil. -/
theorem C9_log_capture_always_runs_witness :
    upEnvHealthFails.init = none ∧
    upEnvHealthFails.isUp = .error (.external "connection refused") ∧
    (Up upEnvHealthFails gceWithAPI).2.count .dumpClusterLogs = 1 ∧
    (Up upEnvHealthFails gceWithAPI).1 = none :=
  have h := C9_log_capture_always_runs upEnvHealthFails gceWithAPI (by decide) (by decide)
  ⟨by decide, by decide, h.1, h.2.2.2 (by decide) (by decide) (by decide)⟩

/-! ## Lemmas: the steps of `initialize` -/

theorem acquireLoop_fields (env : Env) (client : BoskosClient) :
    ∀ (n : Nat) (d : deployer) (w : World) (r : Option GoError) (d1 : deployer) (w1 : World),
      acquireLoop env client n d w = (r, d1, w1) →
      d1.clusters = d.clusters ∧ (r = none → d1.projects.length = d.projects.length + n) := by
  intro n
  induction n with
  | zero =>
    intro d w r d1 w1 h
    simp only [acquireLoop, Prod.mk.injEq] at h
    obtain ⟨_, hd, _⟩ := h
    subst hd
    simp
  | succ n ih =>
    intro d w r d1 w1 h
    unfold acquireLoop at h
    split at h
    · simp only [Prod.mk.injEq] at h
      obtain ⟨hr, hd, _⟩ := h
      subst hd
      refine ⟨rfl, fun hn => ?_⟩
      rw [hn] at hr
      cases hr
    · obtain ⟨h1, h2⟩ := ih _ _ _ _ _ h
      refine ⟨h1, fun hn => ?_⟩
      rw [h2 hn]
      simp
      omega

theorem acquireProjects_fields (env : Env) (d : deployer) (w : World) (r : Option GoError)
    (d1 : deployer) (w1 : World) (h : acquireProjects env d w = (r, d1, w1)) :
    d1.clusters = d.clusters ∧
      (r = none → (d.projects ≠ [] → d1.projects = d.projects) ∧
        (d.projects = [] → d1.projects.length = d.boskosProjectsRequested.toNat)) := by
  unfold acquireProjects at h
  by_cases hp : d.projects.length = 0
  · have hnil : d.projects = [] := List.length_eq_zero.mp hp
    simp only [hp, if_true] at h
    split at h
    · simp only [Prod.mk.injEq] at h
      obtain ⟨hr, hd, _⟩ := h
      subst hd
      refine ⟨rfl, fun hn => ?_⟩
      rw [hn] at hr
      cases hr
    · obtain ⟨h1, h2⟩ := acquireLoop_fields env _ _ _ _ _ _ _ h
      refine ⟨h1, fun hn => ⟨fun hne => absurd hnil hne, fun _ => ?_⟩⟩
      rw [h2 hn]
      simp [hnil]
  · have hne : d.projects ≠ [] := fun h0 => hp (by simp [h0])
    simp only [hp, if_false, Prod.mk.injEq] at h
    obtain ⟨_, hd, _⟩ := h
    subst hd
    exact ⟨rfl, fun _ => ⟨fun _ => rfl, fun h0 => absurd h0 hne⟩⟩

theorem initialiseDown_state (env : Env) (d : deployer) (w : World) :
    (initialiseDown env d w).2 = (d, w) := by
  unfold initialiseDown
  split
  · split <;> rfl
  · rfl

/-- A successful `up` run went through project acquisition and the layout step. -/
theorem initialise_up_success (env : Env) (d d' : deployer) (w w' : World)
    (hup : d.shouldUp = true) (h : initialise env d w = (.returned none, d', w')) :
    ∃ d1 w1, acquireProjects env d w = (none, d1, w1) ∧ buildLayout d1 = (.returned none, d') := by
  unfold initialise at h
  simp only [hup, if_true] at h
  unfold initialiseUp at h
  cases hv : env.verifyUpFlags d with
  | some err => simp [hv] at h
  | none =>
    simp only [hv] at h
    rcases ha : acquireProjects env d w with ⟨_ | err, d1, w1⟩
    · simp only [ha] at h
      rcases hb : buildLayout d1 with ⟨out, d2⟩
      simp only [hb] at h
      cases out with
      | panicked msg => simp at h
      | returned r =>
        cases r with
        | some err => simp at h
        | none =>
          simp only at h
          have hs := initialiseDown_state env d2 w1
          rw [h] at hs
          simp only [Prod.mk.injEq] at hs
          exact ⟨d1, w1, rfl, by rw [hs.1]; exact hb⟩
    · simp [ha] at h

theorem layoutLoop_cons_ok (clusters : List String) (p : String) (ps : List String) (i : Nat)
    (m m' : GoMap) (h : layoutLoop clusters (p :: ps) i m = (none, m')) :
    ∃ names, filterMultiProjectClusterName clusters (i : Int) = .ok names := by
  unfold layoutLoop at h
  cases hf : filterMultiProjectClusterName clusters (i : Int) with
  | error e => simp [hf] at h
  | ok names => exact ⟨names, rfl⟩

/-- The layout of a successful `up` run over two or more distinct projects. -/
theorem initialise_layout (env : Env) (d d' : deployer) (w w' : World)
    (hup : d.shouldUp = true) (h : initialise env d w = (.returned none, d', w'))
    (hlen : 2 ≤ d'.projects.length) (hnodup : d'.projects.Nodup) :
    d'.clustersLayout = layoutOf d.clusters d'.projects 0 ∧
      ∀ t ∈ d.clusters, isWellFormedToken t = true := by
  obtain ⟨d1, w1, ha, hb⟩ := initialise_up_success env d d' w w' hup h
  have hcl := (acquireProjects_fields env d w none d1 w1 ha).1
  unfold buildLayout at hb
  by_cases hn : d1.projects.length > 1
  · simp only [hn, if_true] at hb
    rcases hl : layoutLoop d1.clusters d1.projects 0 [] with ⟨_ | err, layout⟩
    · simp only [hl, Prod.mk.injEq, true_and] at hb
      subst hb
      simp only at hlen hnodup ⊢
      cases hps : d1.projects with
      | nil => simp [hps] at hn
      | cons p ps =>
        rw [hps] at hl
        obtain ⟨names, hf⟩ := layoutLoop_cons_ok _ _ _ _ _ _ hl
        obtain ⟨hall, hwf⟩ := filter_ok_all _ _ _ hf
        have := layoutLoop_ok d1.clusters hall (p :: ps) 0 [] (hps ▸ hnodup) (by simp)
        rw [this] at hl
        simp only [Prod.mk.injEq, true_and, List.nil_append] at hl
        rw [← hl, ← hcl]
        exact ⟨rfl, hwf⟩
    · simp [hl] at hb
  · simp only [hn, if_false] at hb
    exfalso
    split at hb
    · simp only [Prod.mk.injEq, true_and] at hb
      subst hb
      simp only at hlen
      omega
    · simp at hb

theorem buildLayout_error (d : deployer) (e : GoError) (hlen : 2 ≤ d.projects.length)
    (hall : ∀ p : Int, filterMultiProjectClusterName d.clusters p = .error e) :
    (buildLayout d).1 = .returned
      (some (.errorfErr "aborting initialization due to invalid project name: %s" e)) := by
  unfold buildLayout
  have hn : d.projects.length > 1 := by omega
  simp only [hn, if_true]
  cases hps : d.projects with
  | nil => simp [hps] at hn
  | cons p ps => simp [layoutLoop, hall]

/-! ## Theorems: `init` and `initialize` -/

/-- A call of `init` on a deployer that `init` has already returned returns
nil and changes nothing, whatever the first call returned. -/
theorem init_again_returns_nil (env : Env) (d : deployer) (w : World) :
    init env (init env d w).2.1 (init env d w).2.2 =
      (.returned none, (init env d w).2.1, (init env d w).2.2) := by
  have hdone : (init env d w).2.1.doInit = true := by
    unfold init
    cases h : d.doInit with
    | true => simp [h]
    | false => simp
  generalize init env d w = first at hdone
  obtain ⟨out, d1, w1⟩ := first
  simp only at hdone
  simp [init, hdone]

/-- With exactly one project in play and at least one cluster token, the layout
step stores the first token only. -/
theorem buildLayout_single_project (d : deployer) (p c : String) (rest : List String)
    (hp : d.projects = [p]) (hc : d.clusters = c :: rest) :
    buildLayout d = (.returned none, { d with clustersLayout := [(p, [c])] }) := by
  unfold buildLayout
  simp [hp, hc, mapSet]

/-- With no project in play the layout step panics. -/
theorem buildLayout_no_project (d : deployer) (hp : d.projects = []) :
    buildLayout d = (.panicked indexPanic, { d with clustersLayout := [] }) := by
  unfold buildLayout
  simp [hp]

/-- An `up` run with no pre-supplied project and no project requested from the
broker, whose flags verify and whose client can be made, panics. -/
theorem initialise_no_project_panics (env : Env) (d : deployer) (w : World)
    (client : BoskosClient) (hup : d.shouldUp = true) (hflags : env.verifyUpFlags d = none)
    (hproj : d.projects = []) (hreq : d.boskosProjectsRequested ≤ 0)
    (hclient : env.newClient d.boskosLocation = .ok client) :
    (initialise env d w).1 = .panicked indexPanic := by
  have h0 : d.boskosProjectsRequested.toNat = 0 := by omega
  simp [initialise, hup, initialiseUp, hflags, acquireProjects, hproj, hclient, h0, acquireLoop,
    buildLayout_no_project]

/-- C1 (the code at the failing input): with the single project `proj-z` and the
clusters `a`, `b`, `initialize` succeeds and leaves the layout
`{"proj-z": ["a"]}`; the token `b` is in no sequence. -/
theorem C1_single_project_keeps_first_only :
    (initialise envAllSucceed (upDeployer ["proj-z"] ["a", "b"]) ⟨0⟩).1 = .returned none ∧
    (initialise envAllSucceed (upDeployer ["proj-z"] ["a", "b"]) ⟨0⟩).2.1.clustersLayout
      = [("proj-z", ["a"])] ∧
    mapGet (initialise envAllSucceed (upDeployer ["proj-z"] ["a", "b"]) ⟨0⟩).2.1.clustersLayout
      "proj-z" ≠ some ["a", "b"] := by
  decide

/-- C4 (the code at the failing input): the first call of `init` returns the
error of `initialize`, the second call on the resulting deployer returns nil. -/
theorem C4_second_init_returns_nil :
    (init envUpFlagsFail (upDeployer ["proj-z"] ["a"]) ⟨0⟩).1 =
      .returned (some (.errorfErr "init failed to verify flags for up: %s"
        (.errorf "number of nodes must be at least 1"))) ∧
    (init envUpFlagsFail (init envUpFlagsFail (upDeployer ["proj-z"] ["a"]) ⟨0⟩).2.1
      (init envUpFlagsFail (upDeployer ["proj-z"] ["a"]) ⟨0⟩).2.2).1 = .returned none := by
  decide

/-- C7 (the code at the failing input): `up` with no pre-supplied project and
zero projects requested from the broker passes flag verification, reaches the
topology step with an empty project list and panics on `d.projects[0]`. -/
theorem C7_empty_project_list_panics :
    (initialise envAllSucceed (brokerDeployer 0 ["a"]) ⟨0⟩).1 = .panicked indexPanic ∧
    (initialise envAllSucceed (brokerDeployer 0 ["a"]) ⟨0⟩).2.1.projects = [] := by
  decide

theorem acquireLoop_first_failure (env : Env) (client : BoskosClient) (e : GoError) :
    ∀ (names : List String) (n : Nat) (d : deployer) (w : World),
      names.length < n →
      (∀ j name, names[j]? = some name →
        env.acquire client gkeProjectResourceType
          (wrapInt64 (d.boskosAcquireTimeoutSeconds * timeSecond)) (w.acquireCalls + j)
          = .ok name) →
      env.acquire client gkeProjectResourceType
          (wrapInt64 (d.boskosAcquireTimeoutSeconds * timeSecond))
          (w.acquireCalls + names.length) = .error e →
      acquireLoop env client n d w =
        (some (.errorfErr "init failed to get project from boskos: %s" e),
          { d with projects := d.projects ++ names },
          { acquireCalls := w.acquireCalls + names.length + 1 }) := by
  intro names
  induction names with
  | nil =>
    intro n d w hn _ hfail
    obtain ⟨m, rfl⟩ : ∃ m, n = m + 1 := ⟨n - 1, by simp at hn; omega⟩
    simp only [List.length_nil, Nat.add_zero] at hfail
    simp [acquireLoop, hfail]
  | cons x xs ih =>
    intro n d w hn hok hfail
    obtain ⟨m, rfl⟩ : ∃ m, n = m + 1 := ⟨n - 1, by simp at hn; omega⟩
    have h0 := hok 0 x (by simp)
    simp only [Nat.add_zero] at h0
    have hrec := ih m { d with projects := d.projects ++ [x] }
      { w with acquireCalls := w.acquireCalls + 1 }
      (by simp at hn; omega)
      (by
        intro j name hj
        have := hok (j + 1) name (by simpa using hj)
        simpa [Nat.add_assoc, Nat.add_comm 1 j] using this)
      (by simpa [Nat.add_assoc, Nat.add_comm 1 xs.length] using hfail)
    simp only [acquireLoop, h0, hrec]
    simp [Nat.add_assoc, Nat.add_comm 1 xs.length]

/-- C6: in an `up` run with no pre-supplied project whose flags verify and whose
broker client can be made, if the first `names.length` acquisitions succeed with
the resource names `names` and the next one (the `k`-th, `k = names.length + 1`,
at most the requested number) fails with `e`, then `initialize` returns the
wrapped error, exactly `k` acquisitions have been issued, `d.projects` is `names`
and every other field but the client, `clustersLayout` included, is as before. -/
theorem C6_first_acquisition_failure_aborts (env : Env) (d : deployer) (w : World)
    (client : BoskosClient) (names : List String) (e : GoError)
    (hup : d.shouldUp = true) (hflags : env.verifyUpFlags d = none)
    (hproj : d.projects = [])
    (hclient : env.newClient d.boskosLocation = .ok client)
    (hk : (names.length : Int) < d.boskosProjectsRequested)
    (hok : ∀ j name, names[j]? = some name →
      env.acquire client gkeProjectResourceType
        (wrapInt64 (d.boskosAcquireTimeoutSeconds * timeSecond)) (w.acquireCalls + j)
        = .ok name)
    (hfail : env.acquire client gkeProjectResourceType
        (wrapInt64 (d.boskosAcquireTimeoutSeconds * timeSecond))
        (w.acquireCalls + names.length) = .error e) :
    initialise env d w =
      (.returned (some (.errorfErr "init failed to get project from boskos: %s" e)),
        { d with boskos := some client, projects := names },
        { acquireCalls := w.acquireCalls + names.length + 1 }) := by
  have hloop := acquireLoop_first_failure env client e names d.boskosProjectsRequested.toNat
    { d with boskos := some client } w (by omega) hok hfail
  obtain ⟨up, down, projects, clusters, layout, boskos, location, requested, timeout, once⟩ := d
  simp only at hup hflags hproj hclient hloop
  subst hproj hup
  simp only [initialise, if_true, initialiseUp, hflags, acquireProjects,
    List.length_nil, hclient, hloop, List.nil_append]

/-- C6, at a concrete input: the second of three requested acquisitions fails;
one lease, `proj-x`, stays in `d.projects`, two acquisitions were issued and the
layout is untouched. -/
theorem C6_first_acquisition_failure_aborts_witness :
    initialise envSecondAcquireFails (brokerDeployer 3 ["a-0", "b-1"]) ⟨0⟩ =
      (.returned (some (.errorfErr "init failed to get project from boskos: %s"
          (.external "resources not found"))),
        { brokerDeployer 3 ["a-0", "b-1"] with
          boskos := some { location := "http://boskos" }, projects := ["proj-x"] },
        { acquireCalls := 2 }) :=
  C6_first_acquisition_failure_aborts envSecondAcquireFails (brokerDeployer 3 ["a-0", "b-1"]) ⟨0⟩
    { location := "http://boskos" } ["proj-x"] (.external "resources not found")
    rfl rfl rfl rfl (by decide)
    (fun j name h => by
      cases j with
      | zero => simp at h; subst h; rfl
      | succ j => simp at h)
    rfl

/-- C3: in an `up` run with two or more projects in play (pre-supplied, or two
or more requested from the broker), a cluster token that does not have exactly
one hyphen (so does not split into two parts), or whose second part is not a
non-negative base-10 integer (decimal digits, which a plus sign may precede),
makes `initialize` return an error, and makes `filterMultiProjectClusterName`
return an error for every project index, wherever the token sits in the list. -/
theorem C3_malformed_token_fails (env : Env) (d : deployer) (w : World) (bad : String)
    (hup : d.shouldUp = true) (hmem : bad ∈ d.clusters)
    (hbad : isWellFormedToken bad = false)
    (hprojects : 2 ≤ d.projects.length ∨ (d.projects = [] ∧ 2 ≤ d.boskosProjectsRequested)) :
    (∃ e, (initialise env d w).1 = .returned (some e)) ∧
      ∀ p : Int, ∃ e, filterMultiProjectClusterName d.clusters p = .error e := by
  obtain ⟨e, he⟩ := filter_error_of_bad d.clusters bad hmem hbad
  refine ⟨?_, fun p => ⟨e, he p⟩⟩
  unfold initialise
  simp only [hup, if_true]
  unfold initialiseUp
  cases hv : env.verifyUpFlags d with
  | some err => exact ⟨_, rfl⟩
  | none =>
    simp only
    rcases ha : acquireProjects env d w with ⟨_ | err, d1, w1⟩
    · obtain ⟨hcl, hpr⟩ := acquireProjects_fields env d w none d1 w1 ha
      obtain ⟨hkeep, hnew⟩ := hpr rfl
      have hlen : 2 ≤ d1.projects.length := by
        rcases hprojects with h2 | ⟨hnil, hreq⟩
        · have hne : d.projects ≠ [] := by
            intro h0
            rw [h0] at h2
            simp at h2
          rw [hkeep hne]
          exact h2
        · rw [hnew hnil]
          omega
      have hb := buildLayout_error d1 e hlen (by rw [hcl]; exact he)
      simp [hb]
    · exact ⟨_, rfl⟩

/-- C3, at a concrete input: the token `foo-x` after a good one, two pre-supplied
projects; `foo`, `a-b-c` and `foo-x` are all malformed. -/
theorem C3_malformed_token_fails_witness :
    (isWellFormedToken "foo" = false ∧ isWellFormedToken "a-b-c" = false ∧
      isWellFormedToken "foo-x" = false) ∧
    (∃ e, (initialise envAllSucceed (upDeployer ["p", "q"] ["a-0", "foo-x"]) ⟨0⟩).1
      = .returned (some e)) ∧
    ∀ p : Int, ∃ e, filterMultiProjectClusterName ["a-0", "foo-x"] p = .error e :=
  ⟨by decide,
    C3_malformed_token_fails envAllSucceed (upDeployer ["p", "q"] ["a-0", "foo-x"]) ⟨0⟩ "foo-x"
      rfl (by decide) (by decide) (Or.inl (by decide))⟩

/-- C2 (as stated, refuted): with the project list `["p", "p"]` and the token
`a-0`, `initialize` succeeds, the token has the form `name-0`, and its name is
not in the sequence of `projects[0]`. -/
theorem C2_counterexample :
    (initialise envAllSucceed (upDeployer ["p", "p"] ["a-0"]) ⟨0⟩).1 = .returned none ∧
    tokenIndex "a-0" = some 0 ∧ firstPart "a-0" = "a" ∧
    mapGet (initialise envAllSucceed (upDeployer ["p", "p"] ["a-0"]) ⟨0⟩).2.1.clustersLayout "p"
      = some [] := by
  decide

/-- C2 (amended): when `initialize` succeeds in an `up` run with two or more
pairwise distinct projects in play, the sequence of `projects[i]` in
`clustersLayout` is exactly the names (suffix stripped) of the tokens of the form
`name-i`, in input order; so every such token appears there. -/
theorem C2_tokens_reach_their_project (env : Env) (d d' : deployer) (w w' : World)
    (hup : d.shouldUp = true) (hinit : initialise env d w = (.returned none, d', w'))
    (hlen : 2 ≤ d'.projects.length) (hnodup : d'.projects.Nodup)
    (i : Nat) (hi : i < d'.projects.length) :
    mapGet d'.clustersLayout (d'.projects.get ⟨i, hi⟩) = some (namesOfProject d.clusters i) ∧
      ∀ t ∈ d.clusters, tokenIndex t = some i → firstPart t ∈ namesOfProject d.clusters i := by
  obtain ⟨hlayout, _⟩ := initialise_layout env d d' w w' hup hinit hlen hnodup
  refine ⟨?_, fun t ht hidx => ?_⟩
  · rw [hlayout]
    have := mapGet_layoutOf d.clusters d'.projects 0 hnodup i hi
    simpa using this
  · unfold namesOfProject
    exact List.mem_map.mpr ⟨t, List.mem_filter.mpr ⟨ht, by simp [hidx]⟩, rfl⟩

/-- C2 (amended), at the input of the specification: the broker hands out
`proj-x` and `proj-y` for the clusters `a-0`, `b-1`, `c-0`. -/
theorem C2_tokens_reach_their_project_witness :
    (initialise envAllSucceed (brokerDeployer 2 ["a-0", "b-1", "c-0"]) ⟨0⟩).1 = .returned none ∧
    (initialise envAllSucceed (brokerDeployer 2 ["a-0", "b-1", "c-0"]) ⟨0⟩).2.1.projects
      = ["proj-x", "proj-y"] ∧
    mapGet (initialise envAllSucceed (brokerDeployer 2 ["a-0", "b-1", "c-0"]) ⟨0⟩).2.1.clustersLayout
        "proj-x" = some ["a", "c"] ∧
    mapGet (initialise envAllSucceed (brokerDeployer 2 ["a-0", "b-1", "c-0"]) ⟨0⟩).2.1.clustersLayout
        "proj-y" = some ["b"] :=
  ⟨by decide, by decide,
   (C2_tokens_reach_their_project envAllSucceed (brokerDeployer 2 ["a-0", "b-1", "c-0"])
      (initialise envAllSucceed (brokerDeployer 2 ["a-0", "b-1", "c-0"]) ⟨0⟩).2.1 ⟨0⟩ ⟨2⟩
      rfl (by decide) (by decide) (by decide) 0 (by decide)).1,
   (C2_tokens_reach_their_project envAllSucceed (brokerDeployer 2 ["a-0", "b-1", "c-0"])
      (initialise envAllSucceed (brokerDeployer 2 ["a-0", "b-1", "c-0"]) ⟨0⟩).2.1 ⟨0⟩ ⟨2⟩
      rfl (by decide) (by decide) (by decide) 1 (by decide)).1⟩

/-- C5 (as stated, refuted): with the projects `p`, `q` and the token `a-5`,
`initialize` succeeds, both sequences are empty and the token is dropped: the
layout holds 0 names for 1 input token. -/
theorem C5_counterexample :
    (initialise envAllSucceed (upDeployer ["p", "q"] ["a-5"]) ⟨0⟩).1 = .returned none ∧
    (initialise envAllSucceed (upDeployer ["p", "q"] ["a-5"]) ⟨0⟩).2.1.clustersLayout
      = [("p", []), ("q", [])] ∧
    totalNames (initialise envAllSucceed (upDeployer ["p", "q"] ["a-5"]) ⟨0⟩).2.1.clustersLayout
      ≠ (upDeployer ["p", "q"] ["a-5"]).clusters.length := by
  decide

/-- C5 (amended): when `initialize` succeeds in an `up` run with two or more
pairwise distinct projects in play and the index of every token is the position
of a project, every token has the form `name-i` for exactly one position `i`,
the keys of `clustersLayout` are the projects, the sequence of `projects[i]` is
the names of the tokens of index `i` in input order, and the number of names over
all sequences is the number of input tokens. -/
theorem C5_tokens_partitioned (env : Env) (d d' : deployer) (w w' : World)
    (hup : d.shouldUp = true) (hinit : initialise env d w = (.returned none, d', w'))
    (hlen : 2 ≤ d'.projects.length) (hnodup : d'.projects.Nodup)
    (hrange : ∀ t ∈ d.clusters, ∀ i, tokenIndex t = some i → i < d'.projects.length) :
    (∀ t ∈ d.clusters, ∃! i, i < d'.projects.length ∧ tokenIndex t = some i) ∧
    d'.clustersLayout.map Prod.fst = d'.projects ∧
    (∀ (i : Nat) (hi : i < d'.projects.length),
      mapGet d'.clustersLayout (d'.projects.get ⟨i, hi⟩) = some (namesOfProject d.clusters i)) ∧
    totalNames d'.clustersLayout = d.clusters.length := by
  obtain ⟨hlayout, hwf⟩ := initialise_layout env d d' w w' hup hinit hlen hnodup
  have hidx : ∀ t ∈ d.clusters, tokenIndex t = some (decimalValue (afterHyphen t)) := by
    intro t ht
    simp [tokenIndex, hwf t ht]
  refine ⟨fun t ht => ?_, ?_, fun i hi => ?_, ?_⟩
  · refine ⟨decimalValue (afterHyphen t), ⟨hrange t ht _ (hidx t ht), hidx t ht⟩, ?_⟩
    intro j hj
    have := hj.2
    rw [hidx t ht] at this
    exact (Option.some.inj this).symm
  · rw [hlayout, layoutOf_keys]
  · rw [hlayout]
    have := mapGet_layoutOf d.clusters d'.projects 0 hnodup i hi
    simpa using this
  · rw [hlayout, totalNames_layoutOf, List.countP_eq_length_filter]
    congr 1
    rw [List.filter_eq_self]
    intro t ht
    have := hrange t ht _ (hidx t ht)
    simp [indexInRange, hidx t ht, this]

/-- C5 (amended), at a concrete input: three tokens over two projects. -/
theorem C5_tokens_partitioned_witness :
    (initialise envAllSucceed (upDeployer ["p", "q"] ["a-0", "b-1", "c-0"]) ⟨0⟩).1 = .returned none ∧
    (initialise envAllSucceed (upDeployer ["p", "q"] ["a-0", "b-1", "c-0"]) ⟨0⟩).2.1.clustersLayout
      = [("p", ["a", "c"]), ("q", ["b"])] ∧
    (initialise envAllSucceed (upDeployer ["p", "q"] ["a-0", "b-1", "c-0"]) ⟨0⟩).2.1.clustersLayout.map
        Prod.fst = ["p", "q"] ∧
    totalNames
        (initialise envAllSucceed (upDeployer ["p", "q"] ["a-0", "b-1", "c-0"]) ⟨0⟩).2.1.clustersLayout
      = 3 :=
  have h := C5_tokens_partitioned envAllSucceed (upDeployer ["p", "q"] ["a-0", "b-1", "c-0"])
    (initialise envAllSucceed (upDeployer ["p", "q"] ["a-0", "b-1", "c-0"]) ⟨0⟩).2.1 ⟨0⟩ ⟨0⟩
    rfl (by decide) (by decide) (by decide) (by decide)
  ⟨by decide, by decide, h.2.1, h.2.2.2⟩

end Kubetest2
